import Mathlib

/-!
Verification of the ASN.1 BER/DER subset decoder of this repository.

Two revisions of the decoder exist in the sources:

* `src/unnamed/part_001` — the counter revision: each cursor carries a
  `length` (bytes remaining) that is decremented by the bounds-checked
  primitives `get_byte` / `skip_bytes`.  Modelled below at top level.
* `src/unnamed/part_000` — the older pointer-arithmetic revision: a cursor
  keeps a fixed base pointer `buffer` and total `length`, and bounds are
  computed as `(p - buffer) + declared > length`.  Modelled in namespace
  `PtrRev`.

The byte buffer is modelled as a total function `mem : Nat → Nat`; a read
of a `uint8_t` yields `mem i % 256` (`byteAt`).  Pointers become `Nat`
offsets into `mem`.  `size_t` is modelled as `Nat` with an explicit
`% 2 ^ (8 * w)` wherever the C code can wrap, `w` being `sizeof(size_t)`
in bytes (8 on LP64, 4 on a 32-bit target); `w` is a parameter throughout.
`int` results that use `-1` as the error value become `Option Nat`.
Stateful C functions taking `asn1_context_t*` become state transformers
returning the (possibly updated) context alongside the result.
-/

/-- Reading one `uint8_t` from memory: values are always in `0 … 255`. -/
def byteAt (mem : Nat → Nat) (i : Nat) : Nat := mem i % 256

/-- The modulus of `size_t` arithmetic for a `w`-byte `size_t`. -/
def sizeMod (w : Nat) : Nat := 2 ^ (8 * w)

/-- Cursor of the counter revision (`asn1_context_t` of src/unnamed/part_001):
`length` is the number of bytes remaining, `p` the current read offset,
`app_type` the application tag number (zero-initialised by `calloc`). -/
structure asn1_context where
  length : Nat
  p : Nat
  app_type : Nat
deriving DecidableEq

/-- The constructor `asn1_context_new(buffer, length)` of part_001: `calloc`
zeroes the record, then `p` and `length` are set. -/
def asn1_context_new (p : Nat) (length : Nat) : asn1_context :=
  { length := length, p := p, app_type := 0 }

/-- Embeds `peek_byte` of part_001: returns the next byte without consuming
it, or the error value (`none` for C's `-1`) when no bytes remain.  The C
body performs no assignment, so the returned context is the argument. -/
def peek_byte (mem : Nat → Nat) (ctx : asn1_context) : Option Nat × asn1_context :=
  if ctx.length = 0 then (none, ctx)
  else (some (byteAt mem ctx.p), ctx)

/-- Embeds `get_byte` of part_001: consumes and returns the next byte
(incrementing `p`, decrementing `length`), or fails on an empty cursor. -/
def get_byte (mem : Nat → Nat) (ctx : asn1_context) : Option Nat × asn1_context :=
  if ctx.length = 0 then (none, ctx)
  else (some (byteAt mem ctx.p),
        { length := ctx.length - 1, p := ctx.p + 1, app_type := ctx.app_type })

/-- Embeds `skip_bytes` of part_001: all-or-nothing advance by `num_skip`. -/
def skip_bytes (ctx : asn1_context) (num_skip : Nat) : Bool × asn1_context :=
  if ctx.length < num_skip then (false, ctx)
  else (true, { length := ctx.length - num_skip, p := ctx.p + num_skip,
                app_type := ctx.app_type })

/-- The accumulation loop of `decode_length` in part_001: reads `n` octets
with `get_byte` (failing, context as mutated so far, if one is missing) and
folds `length = (length << 8) + byte`, each step taken modulo `size_t`. -/
def decodeOctets (w : Nat) (mem : Nat → Nat) :
    Nat → Nat → asn1_context → Option Nat × asn1_context
  | 0, acc, ctx => (some acc, ctx)
  | n + 1, acc, ctx =>
    match get_byte mem ctx with
    | (none, c) => (none, c)
    | (some b, c) =>
      decodeOctets w mem n (((acc <<< 8) % sizeMod w + b) % sizeMod w) c

/-- Embeds `decode_length` of part_001.  Short form: the octet itself is the
length.  Long form: `N = octet & 0x7F` further octets are accumulated after
the guard `N < sizeof(size_t)`; on any failure the context keeps whatever
was consumed so far (the C code returns 0 without restoring `ctx`). -/
def decode_length (w : Nat) (mem : Nat → Nat) (ctx : asn1_context) :
    Option Nat × asn1_context :=
  match get_byte mem ctx with
  | (none, c) => (none, c)
  | (some num_octets, c) =>
    if num_octets &&& 0x80 = 0 then (some num_octets, c)
    else if w ≤ num_octets &&& 0x7F then (none, c)
    else decodeOctets w mem (num_octets &&& 0x7F) 0 c

/-- Embeds `asn1_constructed_get` of part_001.  `get_byte` returning `-1`
or a tag failing `(type & 0xE0) == 0xA0` aborts; then the length is decoded
and checked against the live remaining count. -/
def asn1_constructed_get (w : Nat) (mem : Nat → Nat) (ctx : asn1_context) :
    Option asn1_context × asn1_context :=
  match get_byte mem ctx with
  | (none, c) => (none, c)
  | (some type, c) =>
    if type &&& 0xE0 ≠ 0xA0 then (none, c)
    else
      match decode_length w mem c with
      | (none, c2) => (none, c2)
      | (some length, c2) =>
        if length > c2.length then (none, c2)
        else (some { asn1_context_new c2.p length with app_type := type &&& 0x1F }, c2)

/-- Embeds `asn1_sequence_get` of part_001.  The C test is
`(get_byte(ctx) & 0x7F) != 0x30`; when `get_byte` returns `-1`,
`(-1 & 0x7F) = 0x7F ≠ 0x30`, so the `none` case always fails. -/
def asn1_sequence_get (w : Nat) (mem : Nat → Nat) (ctx : asn1_context) :
    Option asn1_context × asn1_context :=
  match get_byte mem ctx with
  | (none, c) => (none, c)
  | (some b, c) =>
    if b &&& 0x7F ≠ 0x30 then (none, c)
    else
      match decode_length w mem c with
      | (none, c2) => (none, c2)
      | (some length, c2) =>
        if length > c2.length then (none, c2)
        else (some (asn1_context_new c2.p length), c2)

/-- Embeds `asn1_set_get` of part_001; as `asn1_sequence_get` with tag mask
result `0x31` (and `(-1 & 0x7F) = 0x7F ≠ 0x31` for the empty case). -/
def asn1_set_get (w : Nat) (mem : Nat → Nat) (ctx : asn1_context) :
    Option asn1_context × asn1_context :=
  match get_byte mem ctx with
  | (none, c) => (none, c)
  | (some b, c) =>
    if b &&& 0x7F ≠ 0x31 then (none, c)
    else
      match decode_length w mem c with
      | (none, c2) => (none, c2)
      | (some length, c2) =>
        if length > c2.length then (none, c2)
        else (some (asn1_context_new c2.p length), c2)

/-- Embeds `asn1_sequence_next` of part_001: take the tag byte, decode the
length, `skip_bytes` over the value. -/
def asn1_sequence_next (w : Nat) (mem : Nat → Nat) (ctx : asn1_context) :
    Bool × asn1_context :=
  match get_byte mem ctx with
  | (none, c) => (false, c)
  | (some _, c) =>
    match decode_length w mem c with
    | (none, c2) => (false, c2)
    | (some length, c2) => skip_bytes c2 length

/-- Embeds `asn1_oid_get` of part_001: tag must be exactly `0x06` (the
`-1` error value also differs from `0x06`, hence the `none` case fails);
on success the view `(offset, length)` into the same buffer is returned. -/
def asn1_oid_get (w : Nat) (mem : Nat → Nat) (ctx : asn1_context) :
    Option (Nat × Nat) × asn1_context :=
  match get_byte mem ctx with
  | (none, c) => (none, c)
  | (some b, c) =>
    if b ≠ 0x06 then (none, c)
    else
      match decode_length w mem c with
      | (none, c2) => (none, c2)
      | (some length, c2) =>
        if length > c2.length then (none, c2)
        else (some (c2.p, length), c2)

/-- Embeds `asn1_octet_string_get` of part_001: as `asn1_oid_get` with the
exact tag `0x04`. -/
def asn1_octet_string_get (w : Nat) (mem : Nat → Nat) (ctx : asn1_context) :
    Option (Nat × Nat) × asn1_context :=
  match get_byte mem ctx with
  | (none, c) => (none, c)
  | (some b, c) =>
    if b ≠ 0x04 then (none, c)
    else
      match decode_length w mem c with
      | (none, c2) => (none, c2)
      | (some length, c2) =>
        if length > c2.length then (none, c2)
        else (some (c2.p, length), c2)

/-- Scenario A buffer `[0x30,0x03,0x06,0x01,0x2A]` as a memory. -/
def memA : Nat → Nat := fun i => List.getD [0x30, 0x03, 0x06, 0x01, 0x2A] i 0

/-- Scenario B buffer `[0x30,0x05,0x06,0x01,0x2A]` as a memory. -/
def memB : Nat → Nat := fun i => List.getD [0x30, 0x05, 0x06, 0x01, 0x2A] i 0

example : asn1_sequence_get 8 memA ⟨5, 0, 0⟩ =
    (some ⟨3, 2, 0⟩, ⟨3, 2, 0⟩) := by decide

example : (asn1_sequence_get 8 memB ⟨5, 0, 0⟩).1 = none := by decide

example : asn1_oid_get 8 memA ⟨3, 2, 0⟩ = (some (4, 1), ⟨1, 4, 0⟩) := by decide

namespace PtrRev

/-- Cursor of the pointer-arithmetic revision (`asn1_context_t` of
src/unnamed/part_000): `buffer` is the base offset fixed at creation,
`length` the total byte count of the view (never decremented), `p` the
current read offset.  Field order follows the source. -/
structure asn1_context where
  buffer : Nat
  length : Nat
  app_type : Nat
  p : Nat
deriving DecidableEq

/-- Embeds `asn1_context_new` of part_000: `calloc` zeroes the record, then
`buffer = p = buffer` and `length` are set. -/
def asn1_context_new (buffer : Nat) (length : Nat) : asn1_context :=
  { buffer := buffer, length := length, app_type := 0, p := buffer }

/-- The accumulation loop of `decode_length` in part_000: folds
`length = (length << 8) + *p` over the `n` octets starting at `pos`,
each step taken modulo `size_t`.  The reads are unconditional in the C
code (no bounds check), which the total memory function models. -/
def accumOctets (w : Nat) (mem : Nat → Nat) : Nat → Nat → Nat → Nat
  | _, 0, acc => acc
  | pos, n + 1, acc =>
    accumOctets w mem (pos + 1) n (((acc <<< 8) % sizeMod w + byteAt mem pos) % sizeMod w)

/-- Embeds `decode_length` of part_000: operates on a pointer (offset)
rather than a cursor, returns the decoded length and the advanced offset,
or `none` when the long-form octet count reaches `sizeof(size_t)`.  The
first octet is read as `**start & 0xFF`. -/
def decode_length (w : Nat) (mem : Nat → Nat) (start : Nat) : Option (Nat × Nat) :=
  let num_octets := byteAt mem start &&& 0xFF
  if num_octets &&& 0x80 = 0 then some (num_octets, start + 1)
  else if w ≤ num_octets &&& 0x7F then none
  else some (accumOctets w mem (start + 1) (num_octets &&& 0x7F) 0,
             start + 1 + (num_octets &&& 0x7F))

/-- Embeds `asn1_constructed_get` of part_000: tag is read through `*ctx->p`
without consuming, the bounds check is `(p - ctx->buffer) + length >
ctx->length` in `size_t` arithmetic, and the parent is never written. -/
def asn1_constructed_get (w : Nat) (mem : Nat → Nat) (ctx : asn1_context) :
    Option asn1_context :=
  let type := byteAt mem ctx.p
  if type &&& 0xE0 ≠ 0xA0 then none
  else
    match decode_length w mem (ctx.p + 1) with
    | none => none
    | some (length, p) =>
      if ((p - ctx.buffer) + length) % sizeMod w > ctx.length then none
      else some { asn1_context_new p length with app_type := type &&& 0x1F }

/-- Embeds `asn1_sequence_get` of part_000. -/
def asn1_sequence_get (w : Nat) (mem : Nat → Nat) (ctx : asn1_context) :
    Option asn1_context :=
  if byteAt mem ctx.p &&& 0x7F ≠ 0x30 then none
  else
    match decode_length w mem (ctx.p + 1) with
    | none => none
    | some (length, p) =>
      if ((p - ctx.buffer) + length) % sizeMod w > ctx.length then none
      else some (asn1_context_new p length)

/-- Embeds `asn1_set_get` of part_000. -/
def asn1_set_get (w : Nat) (mem : Nat → Nat) (ctx : asn1_context) :
    Option asn1_context :=
  if byteAt mem ctx.p &&& 0x7F ≠ 0x31 then none
  else
    match decode_length w mem (ctx.p + 1) with
    | none => none
    | some (length, p) =>
      if ((p - ctx.buffer) + length) % sizeMod w > ctx.length then none
      else some (asn1_context_new p length)

/-- Embeds `asn1_sequence_next` of part_000: decodes the length at `p + 1`,
re-checks bounds by pointer difference, and on success moves `p` past the
whole element; on failure `seq` is untouched. -/
def asn1_sequence_next (w : Nat) (mem : Nat → Nat) (seq : asn1_context) :
    Bool × asn1_context :=
  match decode_length w mem (seq.p + 1) with
  | none => (false, seq)
  | some (length, p) =>
    if ((p - seq.buffer) + length) % sizeMod w > seq.length then (false, seq)
    else (true, { seq with p := p + length })

/-- Embeds `asn1_oid_get` of part_000: the tag must be exactly `0x06`;
`*oid` starts at `ctx->p + 1` and is advanced by `decode_length` to the
start of the value.  There is no check of the decoded length against the
cursor's bounds. -/
def asn1_oid_get (w : Nat) (mem : Nat → Nat) (ctx : asn1_context) :
    Option (Nat × Nat) :=
  if byteAt mem ctx.p ≠ 0x06 then none
  else
    match decode_length w mem (ctx.p + 1) with
    | none => none
    | some (length, oid) => some (oid, length)

/-- Embeds `asn1_octet_string_get` of part_000: as `asn1_oid_get` with the
exact tag `0x04` and, likewise, no bounds check on the decoded length. -/
def asn1_octet_string_get (w : Nat) (mem : Nat → Nat) (ctx : asn1_context) :
    Option (Nat × Nat) :=
  if byteAt mem ctx.p ≠ 0x04 then none
  else
    match decode_length w mem (ctx.p + 1) with
    | none => none
    | some (length, octet_string) => some (octet_string, length)

end PtrRev

/-- A two-byte buffer `[0x06, 0x05]`: an OID header whose declared value
length 5 exceeds the 0 bytes that remain after the header. -/
def memO : Nat → Nat := fun i => List.getD [0x06, 0x05] i 0

example : (asn1_oid_get 8 memO ⟨2, 0, 0⟩).1 = none := by decide

example : PtrRev.asn1_oid_get 8 memO ⟨0, 2, 0, 0⟩ = some (2, 5) := by decide

/-! Helper lemmas about the bounds-checked primitives and the length
decoder of the counter revision. -/

theorem byteAt_lt (mem : Nat → Nat) (i : Nat) : byteAt mem i < 256 :=
  Nat.mod_lt _ (by norm_num)

theorem byteAt_and_255 (mem : Nat → Nat) (i : Nat) :
    byteAt mem i &&& 0xFF = byteAt mem i := by
  have h : (0xFF : Nat) = 2 ^ 8 - 1 := by norm_num
  rw [h, Nat.and_pow_two_sub_one_eq_mod]
  exact Nat.mod_eq_of_lt (byteAt_lt mem i)

theorem get_byte_of_zero (mem : Nat → Nat) (ctx : asn1_context)
    (h : ctx.length = 0) : get_byte mem ctx = (none, ctx) := by
  simp [get_byte, h]

theorem get_byte_of_pos (mem : Nat → Nat) (ctx : asn1_context)
    (h : ctx.length ≠ 0) :
    get_byte mem ctx =
      (some (byteAt mem ctx.p),
       { length := ctx.length - 1, p := ctx.p + 1, app_type := ctx.app_type }) := by
  simp [get_byte, h]

/-- Whatever `get_byte` does, the window end `p + length` is conserved and
the position never moves backward. -/
theorem get_byte_state (mem : Nat → Nat) (ctx : asn1_context) :
    ctx.p ≤ (get_byte mem ctx).2.p ∧
    (get_byte mem ctx).2.p + (get_byte mem ctx).2.length = ctx.p + ctx.length := by
  by_cases h : ctx.length = 0 <;> simp [get_byte, h] <;> omega

/-- `skip_bytes` conserves the window end and never moves backward. -/
theorem skip_bytes_state (ctx : asn1_context) (n : Nat) :
    ctx.p ≤ (skip_bytes ctx n).2.p ∧
    (skip_bytes ctx n).2.p + (skip_bytes ctx n).2.length = ctx.p + ctx.length := by
  by_cases h : ctx.length < n <;> simp [skip_bytes, h] <;> omega

/-- The octet-accumulation loop conserves the window end and never moves
the position backward, on success and on failure alike. -/
theorem decodeOctets_state (w : Nat) (mem : Nat → Nat) :
    ∀ (n acc : Nat) (ctx : asn1_context),
      ctx.p ≤ (decodeOctets w mem n acc ctx).2.p ∧
      (decodeOctets w mem n acc ctx).2.p + (decodeOctets w mem n acc ctx).2.length =
        ctx.p + ctx.length := by
  intro n
  induction n with
  | zero => intro acc ctx; simp [decodeOctets]
  | succ k ih =>
    intro acc ctx
    have hs := get_byte_state mem ctx
    rcases hg : get_byte mem ctx with ⟨tb, c⟩
    rw [hg] at hs
    dsimp only at hs
    cases tb with
    | none => simp [decodeOctets, hg]; omega
    | some b =>
      have ht := ih (((acc <<< 8) % sizeMod w + b) % sizeMod w) c
      simp only [decodeOctets, hg] at ht ⊢
      exact ⟨le_trans hs.1 ht.1, by omega⟩

/-- `decode_length` conserves the window end and never moves backward. -/
theorem decode_length_state (w : Nat) (mem : Nat → Nat) (ctx : asn1_context) :
    ctx.p ≤ (decode_length w mem ctx).2.p ∧
    (decode_length w mem ctx).2.p + (decode_length w mem ctx).2.length =
      ctx.p + ctx.length := by
  have hs := get_byte_state mem ctx
  rcases hg : get_byte mem ctx with ⟨tb, c⟩
  rw [hg] at hs
  dsimp only at hs
  cases tb with
  | none => simp [decode_length, hg]; omega
  | some b =>
    have ht := decodeOctets_state w mem (b &&& 0x7F) 0 c
    simp only [decode_length, hg]
    by_cases h80 : b &&& 0x80 = 0
    · simpa [h80] using hs
    · by_cases hw : w ≤ b &&& 0x7F
      · simpa [h80, hw] using hs
      · simp [h80, hw]
        exact ⟨le_trans hs.1 ht.1, by omega⟩

/-- `asn1_constructed_get` conserves the parent window end and never moves
the parent position backward. -/
theorem constructed_get_state (w : Nat) (mem : Nat → Nat) (ctx : asn1_context) :
    ctx.p ≤ (asn1_constructed_get w mem ctx).2.p ∧
    (asn1_constructed_get w mem ctx).2.p + (asn1_constructed_get w mem ctx).2.length =
      ctx.p + ctx.length := by
  have hs := get_byte_state mem ctx
  rcases hg : get_byte mem ctx with ⟨tb, c⟩
  rw [hg] at hs
  dsimp only at hs
  cases tb with
  | none => simp [asn1_constructed_get, hg]; omega
  | some b =>
    have hd := decode_length_state w mem c
    rcases hdl : decode_length w mem c with ⟨lo, c2⟩
    rw [hdl] at hd
    dsimp only at hd
    simp only [asn1_constructed_get, hg, hdl]
    by_cases hm : b &&& 0xE0 ≠ 0xA0
    · simp [hm]; omega
    · cases lo with
      | none => simp [hm]; omega
      | some len =>
        by_cases hl : len > c2.length <;> simp [hm, hl] <;>
          exact ⟨le_trans hs.1 hd.1, by omega⟩

/-- `asn1_sequence_get` conserves the parent window end and never moves
the parent position backward. -/
theorem sequence_get_state (w : Nat) (mem : Nat → Nat) (ctx : asn1_context) :
    ctx.p ≤ (asn1_sequence_get w mem ctx).2.p ∧
    (asn1_sequence_get w mem ctx).2.p + (asn1_sequence_get w mem ctx).2.length =
      ctx.p + ctx.length := by
  have hs := get_byte_state mem ctx
  rcases hg : get_byte mem ctx with ⟨tb, c⟩
  rw [hg] at hs
  dsimp only at hs
  cases tb with
  | none => simp [asn1_sequence_get, hg]; omega
  | some b =>
    have hd := decode_length_state w mem c
    rcases hdl : decode_length w mem c with ⟨lo, c2⟩
    rw [hdl] at hd
    dsimp only at hd
    simp only [asn1_sequence_get, hg, hdl]
    by_cases hm : b &&& 0x7F ≠ 0x30
    · simp [hm]; omega
    · cases lo with
      | none => simp [hm]; omega
      | some len =>
        by_cases hl : len > c2.length <;> simp [hm, hl] <;>
          exact ⟨le_trans hs.1 hd.1, by omega⟩

/-- `asn1_set_get` conserves the parent window end and never moves the
parent position backward. -/
theorem set_get_state (w : Nat) (mem : Nat → Nat) (ctx : asn1_context) :
    ctx.p ≤ (asn1_set_get w mem ctx).2.p ∧
    (asn1_set_get w mem ctx).2.p + (asn1_set_get w mem ctx).2.length =
      ctx.p + ctx.length := by
  have hs := get_byte_state mem ctx
  rcases hg : get_byte mem ctx with ⟨tb, c⟩
  rw [hg] at hs
  dsimp only at hs
  cases tb with
  | none => simp [asn1_set_get, hg]; omega
  | some b =>
    have hd := decode_length_state w mem c
    rcases hdl : decode_length w mem c with ⟨lo, c2⟩
    rw [hdl] at hd
    dsimp only at hd
    simp only [asn1_set_get, hg, hdl]
    by_cases hm : b &&& 0x7F ≠ 0x31
    · simp [hm]; omega
    · cases lo with
      | none => simp [hm]; omega
      | some len =>
        by_cases hl : len > c2.length <;> simp [hm, hl] <;>
          exact ⟨le_trans hs.1 hd.1, by omega⟩

/-- `asn1_sequence_next` conserves the window end and never moves the
position backward. -/
theorem sequence_next_state (w : Nat) (mem : Nat → Nat) (ctx : asn1_context) :
    ctx.p ≤ (asn1_sequence_next w mem ctx).2.p ∧
    (asn1_sequence_next w mem ctx).2.p + (asn1_sequence_next w mem ctx).2.length =
      ctx.p + ctx.length := by
  have hs := get_byte_state mem ctx
  rcases hg : get_byte mem ctx with ⟨tb, c⟩
  rw [hg] at hs
  dsimp only at hs
  cases tb with
  | none => simp [asn1_sequence_next, hg]; omega
  | some b =>
    have hd := decode_length_state w mem c
    rcases hdl : decode_length w mem c with ⟨lo, c2⟩
    rw [hdl] at hd
    dsimp only at hd
    simp only [asn1_sequence_next, hg, hdl]
    cases lo with
    | none => simp; omega
    | some len =>
      have hk := skip_bytes_state c2 len
      simp only
      exact ⟨le_trans hs.1 (le_trans hd.1 hk.1), by omega⟩

/-- `asn1_oid_get` conserves the window end and never moves the position
backward. -/
theorem oid_get_state (w : Nat) (mem : Nat → Nat) (ctx : asn1_context) :
    ctx.p ≤ (asn1_oid_get w mem ctx).2.p ∧
    (asn1_oid_get w mem ctx).2.p + (asn1_oid_get w mem ctx).2.length =
      ctx.p + ctx.length := by
  have hs := get_byte_state mem ctx
  rcases hg : get_byte mem ctx with ⟨tb, c⟩
  rw [hg] at hs
  dsimp only at hs
  cases tb with
  | none => simp [asn1_oid_get, hg]; omega
  | some b =>
    have hd := decode_length_state w mem c
    rcases hdl : decode_length w mem c with ⟨lo, c2⟩
    rw [hdl] at hd
    dsimp only at hd
    simp only [asn1_oid_get, hg, hdl]
    by_cases hm : b ≠ 0x06
    · simp [hm]; omega
    · cases lo with
      | none => simp [hm]; omega
      | some len =>
        by_cases hl : len > c2.length <;> simp [hm, hl] <;>
          exact ⟨le_trans hs.1 hd.1, by omega⟩

/-- `asn1_octet_string_get` conserves the window end and never moves the
position backward. -/
theorem octet_string_get_state (w : Nat) (mem : Nat → Nat) (ctx : asn1_context) :
    ctx.p ≤ (asn1_octet_string_get w mem ctx).2.p ∧
    (asn1_octet_string_get w mem ctx).2.p + (asn1_octet_string_get w mem ctx).2.length =
      ctx.p + ctx.length := by
  have hs := get_byte_state mem ctx
  rcases hg : get_byte mem ctx with ⟨tb, c⟩
  rw [hg] at hs
  dsimp only at hs
  cases tb with
  | none => simp [asn1_octet_string_get, hg]; omega
  | some b =>
    have hd := decode_length_state w mem c
    rcases hdl : decode_length w mem c with ⟨lo, c2⟩
    rw [hdl] at hd
    dsimp only at hd
    simp only [asn1_octet_string_get, hg, hdl]
    by_cases hm : b ≠ 0x04
    · simp [hm]; omega
    · cases lo with
      | none => simp [hm]; omega
      | some len =>
        by_cases hl : len > c2.length <;> simp [hm, hl] <;>
          exact ⟨le_trans hs.1 hd.1, by omega⟩


/-! Claim theorems. -/

/-- Claim C6: `skip_bytes(ctx, n)` succeeds exactly when `n ≤ remaining`;
on success it advances the position by exactly `n` and decrements the
remaining count by `n`; on failure the cursor is byte-for-byte unchanged,
so no partially advanced state is observable. -/
theorem c6_skip_all_or_nothing (ctx : asn1_context) (n : Nat) :
    ((skip_bytes ctx n).1 = true ↔ n ≤ ctx.length) ∧
    (n ≤ ctx.length →
      skip_bytes ctx n =
        (true, { length := ctx.length - n, p := ctx.p + n, app_type := ctx.app_type })) ∧
    (ctx.length < n → skip_bytes ctx n = (false, ctx)) := by
  unfold skip_bytes
  by_cases h : ctx.length < n <;> simp [h] <;> omega

/-- Claim C6 witness: a concrete in-bounds skip advances exactly, and a
concrete out-of-bounds skip leaves the cursor unchanged. -/
theorem c6_skip_all_or_nothing_witness :
    skip_bytes ⟨5, 0, 0⟩ 3 = (true, ⟨2, 3, 0⟩) ∧
    skip_bytes ⟨2, 3, 0⟩ 5 = (false, ⟨2, 3, 0⟩) :=
  ⟨(c6_skip_all_or_nothing ⟨5, 0, 0⟩ 3).2.1 (by decide),
   (c6_skip_all_or_nothing ⟨2, 3, 0⟩ 5).2.2 (by decide)⟩

/-- Claim C7: `peek_byte` returns the next byte (or `none` when
`remaining = 0`), never changes the cursor, and consecutive calls return
the same result. -/
theorem c7_peek_idempotent (mem : Nat → Nat) (ctx : asn1_context) :
    (peek_byte mem ctx).2 = ctx ∧
    (ctx.length = 0 → (peek_byte mem ctx).1 = none) ∧
    (ctx.length ≠ 0 → (peek_byte mem ctx).1 = some (byteAt mem ctx.p)) ∧
    (peek_byte mem ((peek_byte mem ctx).2)).1 = (peek_byte mem ctx).1 := by
  unfold peek_byte
  by_cases h : ctx.length = 0 <;> simp [h]

/-- Claim C7 witness: concrete peeks on Scenario A's buffer. -/
theorem c7_peek_idempotent_witness :
    (peek_byte memA ⟨5, 0, 0⟩).1 = some (byteAt memA 0) ∧
    (peek_byte memA ⟨0, 5, 0⟩).1 = none :=
  ⟨(c7_peek_idempotent memA ⟨5, 0, 0⟩).2.2.1 (by decide),
   (c7_peek_idempotent memA ⟨0, 5, 0⟩).2.1 (by decide)⟩

/-- Claim C9: on the buffer `[0x30,0x03,0x06,0x01,0x2A]`,
`asn1_sequence_get` succeeds with a child of `remaining = 3` positioned at
offset 2, and `asn1_oid_get` on that child succeeds with the view
`(offset 4, length 1)`, offset 4 holding the byte `0x2A`. -/
theorem c9_scenario_a :
    asn1_sequence_get 8 memA ⟨5, 0, 0⟩ = (some ⟨3, 2, 0⟩, ⟨3, 2, 0⟩) ∧
    asn1_oid_get 8 memA ⟨3, 2, 0⟩ = (some (4, 1), ⟨1, 4, 0⟩) ∧
    byteAt memA 4 = 0x2A := by decide

/-- Claim C3: whenever the first length octet has its high bit set and its
low seven bits reach the byte width `w` of `size_t`, `decode_length`
fails, having consumed exactly that one octet and no further length
octets, regardless of the following octet values. -/
theorem c3_overflow_guard (w : Nat) (mem : Nat → Nat) (ctx : asn1_context)
    (h1 : ctx.length ≠ 0) (h2 : byteAt mem ctx.p &&& 0x80 ≠ 0)
    (h3 : w ≤ byteAt mem ctx.p &&& 0x7F) :
    decode_length w mem ctx =
      (none, { length := ctx.length - 1, p := ctx.p + 1, app_type := ctx.app_type }) := by
  unfold decode_length
  rw [get_byte_of_pos mem ctx h1]
  simp [h2, h3]

/-- Claim C3 witness: the long-form octet `0x84` followed by four octets is
rejected with a 4-byte length counter, with only the `0x84` consumed. -/
theorem c3_overflow_guard_witness :
    decode_length 4 (fun i => List.getD [0x84, 0x01, 0x02, 0x03, 0x04] i 0) ⟨5, 0, 0⟩ =
      (none, ⟨4, 1, 0⟩) :=
  c3_overflow_guard 4 (fun i => List.getD [0x84, 0x01, 0x02, 0x03, 0x04] i 0)
    ⟨5, 0, 0⟩ (by decide) (by decide) (by decide)

/-- Claim C8: a first length octet of exactly `0x80` (the BER
indefinite-length marker) decodes as the long form with zero subsequent
octets: `decode_length` succeeds with length 0, consuming only that one
octet. -/
theorem c8_indefinite_marker (w : Nat) (mem : Nat → Nat) (ctx : asn1_context)
    (hw : 1 ≤ w) (h1 : ctx.length ≠ 0) (h2 : byteAt mem ctx.p = 0x80) :
    decode_length w mem ctx =
      (some 0, { length := ctx.length - 1, p := ctx.p + 1, app_type := ctx.app_type }) := by
  unfold decode_length
  rw [get_byte_of_pos mem ctx h1, h2]
  have ha : (0x80 : Nat) &&& 0x80 ≠ 0 := by decide
  have hb : (0x80 : Nat) &&& 0x7F = 0 := by decide
  have hc : ¬ w ≤ 0 := by omega
  simp [ha, hb, hc, decodeOctets]

/-- Claim C8 witness: the single byte `0x80` decodes to length 0 having
consumed one octet, on an 8-byte `size_t`. -/
theorem c8_indefinite_marker_witness :
    decode_length 8 (fun i => List.getD [0x80] i 0) ⟨1, 0, 0⟩ = (some 0, ⟨0, 1, 0⟩) :=
  c8_indefinite_marker 8 (fun i => List.getD [0x80] i 0) ⟨1, 0, 0⟩
    (by decide) (by decide) (by decide)

/-- Claim C2: every child cursor produced by a successful
`asn1_constructed_get`, `asn1_sequence_get` or `asn1_set_get` spans only
bytes inside the parent's window at call time (`parent.p ≤ child.p` and
`child.p + child.length ≤ parent.p + parent.length`); and on the Scenario B
buffer `[0x30,0x05,0x06,0x01,0x2A]` (declared length 5, only 3 bytes after
the header) `asn1_sequence_get` fails. -/
theorem c2_child_in_parent :
    (∀ (w : Nat) (mem : Nat → Nat) (ctx child : asn1_context),
      (asn1_constructed_get w mem ctx).1 = some child →
        ctx.p ≤ child.p ∧ child.p + child.length ≤ ctx.p + ctx.length) ∧
    (∀ (w : Nat) (mem : Nat → Nat) (ctx child : asn1_context),
      (asn1_sequence_get w mem ctx).1 = some child →
        ctx.p ≤ child.p ∧ child.p + child.length ≤ ctx.p + ctx.length) ∧
    (∀ (w : Nat) (mem : Nat → Nat) (ctx child : asn1_context),
      (asn1_set_get w mem ctx).1 = some child →
        ctx.p ≤ child.p ∧ child.p + child.length ≤ ctx.p + ctx.length) ∧
    (asn1_sequence_get 8 memB ⟨5, 0, 0⟩).1 = none := by
  refine ⟨?_, ?_, ?_, by decide⟩
  · intro w mem ctx child h
    have hs := get_byte_state mem ctx
    rcases hg : get_byte mem ctx with ⟨tb, c⟩
    rw [hg] at hs
    dsimp only at hs
    cases tb with
    | none => simp [asn1_constructed_get, hg] at h
    | some b =>
      have hd := decode_length_state w mem c
      rcases hdl : decode_length w mem c with ⟨lo, c2⟩
      rw [hdl] at hd
      dsimp only at hd
      simp only [asn1_constructed_get, hg, hdl] at h
      by_cases hm : b &&& 0xE0 ≠ 0xA0
      · simp [hm] at h
      · cases lo with
        | none => simp [hm] at h
        | some len =>
          by_cases hl : len > c2.length
          · simp [hm, hl] at h
          · simp [hm, hl, asn1_context_new] at h
            rw [← h]
            constructor <;> dsimp only <;> omega
  · intro w mem ctx child h
    have hs := get_byte_state mem ctx
    rcases hg : get_byte mem ctx with ⟨tb, c⟩
    rw [hg] at hs
    dsimp only at hs
    cases tb with
    | none => simp [asn1_sequence_get, hg] at h
    | some b =>
      have hd := decode_length_state w mem c
      rcases hdl : decode_length w mem c with ⟨lo, c2⟩
      rw [hdl] at hd
      dsimp only at hd
      simp only [asn1_sequence_get, hg, hdl] at h
      by_cases hm : b &&& 0x7F ≠ 0x30
      · simp [hm] at h
      · cases lo with
        | none => simp [hm] at h
        | some len =>
          by_cases hl : len > c2.length
          · simp [hm, hl] at h
          · simp [hm, hl, asn1_context_new] at h
            rw [← h]
            constructor <;> dsimp only <;> omega
  · intro w mem ctx child h
    have hs := get_byte_state mem ctx
    rcases hg : get_byte mem ctx with ⟨tb, c⟩
    rw [hg] at hs
    dsimp only at hs
    cases tb with
    | none => simp [asn1_set_get, hg] at h
    | some b =>
      have hd := decode_length_state w mem c
      rcases hdl : decode_length w mem c with ⟨lo, c2⟩
      rw [hdl] at hd
      dsimp only at hd
      simp only [asn1_set_get, hg, hdl] at h
      by_cases hm : b &&& 0x7F ≠ 0x31
      · simp [hm] at h
      · cases lo with
        | none => simp [hm] at h
        | some len =>
          by_cases hl : len > c2.length
          · simp [hm, hl] at h
          · simp [hm, hl, asn1_context_new] at h
            rw [← h]
            constructor <;> dsimp only <;> omega

/-- Claim C2 witness: on the Scenario A buffer the child returned by
`asn1_sequence_get` lies within the parent's 5-byte window. -/
theorem c2_child_in_parent_witness :
    (0 : Nat) ≤ 2 ∧ 2 + 3 ≤ 0 + 5 := by
  have h := c2_child_in_parent.2.1 8 memA ⟨5, 0, 0⟩ ⟨3, 2, 0⟩ (by decide)
  exact h

/-- A one-byte buffer `[0x00]`: not a valid SEQUENCE tag. -/
def memZ : Nat → Nat := fun i => List.getD [0x00] i 0

/-- Claim C1 counterexample: on the one-byte buffer `[0x00]`,
`asn1_sequence_get` fails, yet the cursor is mutated: the tag byte was
consumed before the mismatch was detected, so the position advanced to 1
and the remaining count dropped to 0. -/
theorem c1_counterexample :
    (asn1_sequence_get 8 memZ ⟨1, 0, 0⟩).1 = none ∧
    (asn1_sequence_get 8 memZ ⟨1, 0, 0⟩).2 = ⟨0, 1, 0⟩ ∧
    (⟨0, 1, 0⟩ : asn1_context) ≠ ⟨1, 0, 0⟩ := by decide

/-- Claim C1 as amended: a failed extraction is guaranteed to leave the
cursor unchanged only when the cursor was already empty (`remaining = 0`);
in general a failed extractor has already consumed the tag byte and
possibly length octets.  What does hold for every call, failed or not:
the position never moves backward and the window end `p + remaining` is
conserved, so the cursor never grows and never escapes its window. -/
theorem c1_amended (w : Nat) (mem : Nat → Nat) (ctx : asn1_context) :
    (ctx.length = 0 →
      asn1_constructed_get w mem ctx = (none, ctx) ∧
      asn1_sequence_get w mem ctx = (none, ctx) ∧
      asn1_set_get w mem ctx = (none, ctx) ∧
      asn1_oid_get w mem ctx = (none, ctx) ∧
      asn1_octet_string_get w mem ctx = (none, ctx) ∧
      asn1_sequence_next w mem ctx = (false, ctx)) ∧
    (ctx.p ≤ (asn1_constructed_get w mem ctx).2.p ∧
      (asn1_constructed_get w mem ctx).2.p + (asn1_constructed_get w mem ctx).2.length =
        ctx.p + ctx.length) ∧
    (ctx.p ≤ (asn1_sequence_get w mem ctx).2.p ∧
      (asn1_sequence_get w mem ctx).2.p + (asn1_sequence_get w mem ctx).2.length =
        ctx.p + ctx.length) ∧
    (ctx.p ≤ (asn1_set_get w mem ctx).2.p ∧
      (asn1_set_get w mem ctx).2.p + (asn1_set_get w mem ctx).2.length =
        ctx.p + ctx.length) ∧
    (ctx.p ≤ (asn1_oid_get w mem ctx).2.p ∧
      (asn1_oid_get w mem ctx).2.p + (asn1_oid_get w mem ctx).2.length =
        ctx.p + ctx.length) ∧
    (ctx.p ≤ (asn1_octet_string_get w mem ctx).2.p ∧
      (asn1_octet_string_get w mem ctx).2.p + (asn1_octet_string_get w mem ctx).2.length =
        ctx.p + ctx.length) ∧
    (ctx.p ≤ (asn1_sequence_next w mem ctx).2.p ∧
      (asn1_sequence_next w mem ctx).2.p + (asn1_sequence_next w mem ctx).2.length =
        ctx.p + ctx.length) := by
  refine ⟨?_, constructed_get_state w mem ctx, sequence_get_state w mem ctx,
    set_get_state w mem ctx, oid_get_state w mem ctx,
    octet_string_get_state w mem ctx, sequence_next_state w mem ctx⟩
  intro h
  have hg := get_byte_of_zero mem ctx h
  unfold asn1_constructed_get asn1_sequence_get asn1_set_get asn1_oid_get
    asn1_octet_string_get asn1_sequence_next
  rw [hg]
  simp

/-- Claim C1 amended witness: on an empty cursor every extractor fails and
leaves the cursor untouched. -/
theorem c1_amended_witness :
    asn1_sequence_get 8 memZ ⟨0, 7, 0⟩ = (none, ⟨0, 7, 0⟩) ∧
    asn1_sequence_next 8 memZ ⟨0, 7, 0⟩ = (false, ⟨0, 7, 0⟩) :=
  ⟨((c1_amended 8 memZ ⟨0, 7, 0⟩).1 rfl).2.1,
   ((c1_amended 8 memZ ⟨0, 7, 0⟩).1 rfl).2.2.2.2.2⟩

/-- The two-byte buffer `[0xBF, 0x00]`: tag `0xBF`, declared length 0. -/
def memBF : Nat → Nat := fun i => List.getD [0xBF, 0x00] i 0

/-- Claim C4 counterexample: the claim says `asn1_constructed_get` fails on
every buffer whose first byte is `0xBF`; but `0xBF & 0xE0 = 0xA0`, so on
`[0xBF, 0x00]` it succeeds, reporting application tag number
`0xBF & 0x1F = 31`. -/
theorem c4_counterexample :
    (0xBF &&& 0xE0 : Nat) = 0xA0 ∧
    (asn1_constructed_get 8 memBF ⟨2, 0, 0⟩).1 = some ⟨0, 2, 31⟩ := by decide

/-- Claim C4 as amended: a first byte `0xA0` with a valid in-bounds length
field makes `asn1_constructed_get` succeed with application tag number 0;
a first byte `b` with `(b & 0xE0) ≠ 0xA0` makes it fail; but `0xBF`
satisfies the mask (`0xBF & 0xE0 = 0xA0`), so it is not rejected: with a
valid in-bounds length it succeeds, reporting tag number 31. -/
theorem c4_amended :
    (∀ (w : Nat) (mem : Nat → Nat) (ctx c1 c2 : asn1_context) (len : Nat),
      get_byte mem ctx = (some 0xA0, c1) →
      decode_length w mem c1 = (some len, c2) →
      len ≤ c2.length →
      (asn1_constructed_get w mem ctx).1 = some ⟨len, c2.p, 0⟩) ∧
    (∀ (w : Nat) (mem : Nat → Nat) (ctx : asn1_context),
      ctx.length ≠ 0 → byteAt mem ctx.p &&& 0xE0 ≠ 0xA0 →
      (asn1_constructed_get w mem ctx).1 = none) ∧
    (asn1_constructed_get 8 memBF ⟨2, 0, 0⟩).1 = some ⟨0, 2, 31⟩ := by
  refine ⟨?_, ?_, by decide⟩
  · intro w mem ctx c1 c2 len hg hd hl
    have hm : (0xA0 : Nat) &&& 0xE0 = 0xA0 := by decide
    have ht : (0xA0 : Nat) &&& 0x1F = 0 := by decide
    have hnl : ¬ len > c2.length := by omega
    simp [asn1_constructed_get, hg, hd, hm, ht, hnl, asn1_context_new]
  · intro w mem ctx h1 h2
    rw [asn1_constructed_get, get_byte_of_pos mem ctx h1]
    simp [h2]

/-- Claim C4 amended witness: `[0xA0, 0x00]` succeeds with tag number 0,
`[0x30, …]` (mask mismatch: `0x30 & 0xE0 = 0x20`) fails. -/
theorem c4_amended_witness :
    (asn1_constructed_get 8 (fun i => List.getD [0xA0, 0x00] i 0) ⟨2, 0, 0⟩).1 =
      some ⟨0, 2, 0⟩ ∧
    (asn1_constructed_get 8 memA ⟨5, 0, 0⟩).1 = none :=
  ⟨c4_amended.1 8 (fun i => List.getD [0xA0, 0x00] i 0) ⟨2, 0, 0⟩ ⟨1, 1, 0⟩ ⟨0, 2, 0⟩ 0
      (by decide) (by decide) (by decide),
   c4_amended.2.1 8 memA ⟨5, 0, 0⟩ (by decide) (by decide)⟩

/-- A SET of three 1-byte OCTET STRINGs:
`[0x31, 0x09, 0x04,0x01,0xA1, 0x04,0x01,0xA2, 0x04,0x01,0xA3]`. -/
def memE : Nat → Nat :=
  fun i => List.getD [0x31, 0x09, 0x04, 0x01, 0xA1, 0x04, 0x01, 0xA2, 0x04, 0x01, 0xA3] i 0

/-- Claim C5 counterexample: on a well-formed SET of three OCTET STRINGs,
the claimed protocol (`asn1_octet_string_get` then `asn1_sequence_next`,
three rounds) breaks in round two: round one's `asn1_octet_string_get`
succeeds but consumes the element header, so the following
`asn1_sequence_next` starts inside the first payload, misparses, and the
second round's `asn1_octet_string_get` fails instead of succeeding. -/
theorem c5_counterexample :
    (asn1_set_get 8 memE ⟨11, 0, 0⟩).1 = some ⟨9, 2, 0⟩ ∧
    asn1_octet_string_get 8 memE ⟨9, 2, 0⟩ = (some (4, 1), ⟨7, 4, 0⟩) ∧
    asn1_sequence_next 8 memE ⟨7, 4, 0⟩ = (true, ⟨1, 10, 0⟩) ∧
    (asn1_octet_string_get 8 memE ⟨1, 10, 0⟩).1 = none := by decide

/-- Claim C5 as amended: on a SET child holding three single-byte OCTET
STRINGs (tag/length bytes fixed, payload bytes arbitrary), iteration works
by `asn1_sequence_next` alone: each of the three calls skips one whole
element from its start and succeeds, and the fourth call (no bytes
remaining) fails leaving the cursor unchanged.  The original interleaving
with `asn1_octet_string_get` fails in round two because the counter
revision's `get` extractors consume the element header. -/
theorem c5_amended (w : Nat) (mem : Nat → Nat)
    (h0 : byteAt mem 0 = 0x31) (h1 : byteAt mem 1 = 0x09)
    (h2 : byteAt mem 2 = 0x04) (h3 : byteAt mem 3 = 0x01)
    (h5 : byteAt mem 5 = 0x04) (h6 : byteAt mem 6 = 0x01)
    (h8 : byteAt mem 8 = 0x04) (h9 : byteAt mem 9 = 0x01) :
    asn1_set_get w mem ⟨11, 0, 0⟩ = (some ⟨9, 2, 0⟩, ⟨9, 2, 0⟩) ∧
    asn1_sequence_next w mem ⟨9, 2, 0⟩ = (true, ⟨6, 5, 0⟩) ∧
    asn1_sequence_next w mem ⟨6, 5, 0⟩ = (true, ⟨3, 8, 0⟩) ∧
    asn1_sequence_next w mem ⟨3, 8, 0⟩ = (true, ⟨0, 11, 0⟩) ∧
    asn1_sequence_next w mem ⟨0, 11, 0⟩ = (false, ⟨0, 11, 0⟩) := by
  have a1 : (0x31 &&& 0x7F : Nat) = 0x31 := by decide
  have a2 : (9 &&& 128 : Nat) = 0 := by decide
  have a3 : (1 &&& 128 : Nat) = 0 := by decide
  refine ⟨?_, ?_, ?_, ?_, ?_⟩
  · simp [asn1_set_get, decode_length, get_byte, asn1_context_new, h0, h1, a1, a2]
  · simp [asn1_sequence_next, decode_length, get_byte, skip_bytes, h2, h3, a3]
  · simp [asn1_sequence_next, decode_length, get_byte, skip_bytes, h5, h6, a3]
  · simp [asn1_sequence_next, decode_length, get_byte, skip_bytes, h8, h9, a3]
  · simp [asn1_sequence_next, get_byte]

/-- Claim C5 amended witness: the concrete SET
`[0x31,0x09,0x04,0x01,0xA1,0x04,0x01,0xA2,0x04,0x01,0xA3]`. -/
theorem c5_amended_witness :
    asn1_set_get 8 memE ⟨11, 0, 0⟩ = (some ⟨9, 2, 0⟩, ⟨9, 2, 0⟩) ∧
    asn1_sequence_next 8 memE ⟨9, 2, 0⟩ = (true, ⟨6, 5, 0⟩) ∧
    asn1_sequence_next 8 memE ⟨6, 5, 0⟩ = (true, ⟨3, 8, 0⟩) ∧
    asn1_sequence_next 8 memE ⟨3, 8, 0⟩ = (true, ⟨0, 11, 0⟩) ∧
    asn1_sequence_next 8 memE ⟨0, 11, 0⟩ = (false, ⟨0, 11, 0⟩) :=
  c5_amended 8 memE (by decide) (by decide) (by decide) (by decide)
    (by decide) (by decide) (by decide) (by decide)

/-- When at least `n` bytes remain, the counter revision's octet loop
succeeds, consumes exactly `n` bytes, and accumulates the same value as
the pointer revision's loop over the same memory. -/
theorem decodeOctets_eq_accumOctets (w : Nat) (mem : Nat → Nat) :
    ∀ (n acc : Nat) (ctx : asn1_context), n ≤ ctx.length →
      decodeOctets w mem n acc ctx =
        (some (PtrRev.accumOctets w mem ctx.p n acc),
         { length := ctx.length - n, p := ctx.p + n, app_type := ctx.app_type }) := by
  intro n
  induction n with
  | zero => intro acc ctx h; simp [decodeOctets, PtrRev.accumOctets]
  | succ k ih =>
    intro acc ctx h
    have hne : ctx.length ≠ 0 := by omega
    rw [decodeOctets, get_byte_of_pos mem ctx hne]
    dsimp only
    rw [ih (((acc <<< 8) % sizeMod w + byteAt mem ctx.p) % sizeMod w)
        { length := ctx.length - 1, p := ctx.p + 1, app_type := ctx.app_type } (by dsimp only; omega)]
    dsimp only
    rw [PtrRev.accumOctets]
    have e1 : ctx.length - 1 - k = ctx.length - (k + 1) := by omega
    have e2 : ctx.p + 1 + k = ctx.p + (k + 1) := by omega
    rw [e1, e2]

/-- Claim C10 counterexample: the two revisions are not observationally
equivalent.  On the two-byte buffer `[0x06, 0x05]` (an OID header whose
declared length 5 exceeds the 0 bytes left after the header), the counter
revision's `asn1_oid_get` fails, while the pointer revision's succeeds and
even returns a view of 5 bytes extending past the buffer end — its
`asn1_oid_get` has no bounds check at all. -/
theorem c10_counterexample :
    (asn1_oid_get 8 memO ⟨2, 0, 0⟩).1 = none ∧
    PtrRev.asn1_oid_get 8 memO ⟨0, 2, 0, 0⟩ = some (2, 5) := by decide

/-- Claim C10 as amended: the revisions are not observationally equivalent
(the pointer revision's `asn1_oid_get` / `asn1_octet_string_get` never
check the decoded length against the cursor's bounds, and its `get`
extractors never mutate the parent cursor, while the counter revision's
consume the header); what does hold is that the two `decode_length`
routines agree — same success or failure, same decoded length, same
octets consumed — on every cursor holding the complete length field. -/
theorem c10_amended (w : Nat) (mem : Nat → Nat) (ctx : asn1_context)
    (h : (if byteAt mem ctx.p &&& 0x80 = 0 then 1
          else 1 + (byteAt mem ctx.p &&& 0x7F)) ≤ ctx.length) :
    PtrRev.decode_length w mem ctx.p =
      ((decode_length w mem ctx).1).map (fun l => (l, (decode_length w mem ctx).2.p)) ∧
    (decode_length w mem ctx).2.p + (decode_length w mem ctx).2.length =
      ctx.p + ctx.length := by
  have hne : ctx.length ≠ 0 := by
    by_cases hb : byteAt mem ctx.p &&& 0x80 = 0 <;> simp [hb] at h <;> omega
  have hmask := byteAt_and_255 mem ctx.p
  by_cases hb : byteAt mem ctx.p &&& 0x80 = 0
  · rw [decode_length, get_byte_of_pos mem ctx hne]
    dsimp only
    rw [if_pos hb]
    unfold PtrRev.decode_length
    rw [hmask, if_pos hb]
    dsimp only
    constructor
    · rfl
    · omega
  · rw [if_neg hb] at h
    by_cases hw : w ≤ byteAt mem ctx.p &&& 0x7F
    · rw [decode_length, get_byte_of_pos mem ctx hne]
      dsimp only
      rw [if_neg hb, if_pos hw]
      unfold PtrRev.decode_length
      rw [hmask, if_neg hb, if_pos hw]
      dsimp only
      constructor
      · rfl
      · omega
    · rw [decode_length, get_byte_of_pos mem ctx hne]
      dsimp only
      rw [if_neg hb, if_neg hw]
      rw [decodeOctets_eq_accumOctets w mem (byteAt mem ctx.p &&& 0x7F) 0
          { length := ctx.length - 1, p := ctx.p + 1, app_type := ctx.app_type }
          (by dsimp only; omega)]
      unfold PtrRev.decode_length
      rw [hmask, if_neg hb, if_neg hw]
      dsimp only
      constructor
      · rfl
      · omega

/-- Claim C10 amended witness: on the Scenario A buffer both revisions
decode the SEQUENCE's short-form length field to 3, consuming one octet. -/
theorem c10_amended_witness :
    PtrRev.decode_length 8 memA (⟨4, 1, 0⟩ : asn1_context).p =
      ((decode_length 8 memA ⟨4, 1, 0⟩).1).map
        (fun l => (l, (decode_length 8 memA ⟨4, 1, 0⟩).2.p)) ∧
    (decode_length 8 memA ⟨4, 1, 0⟩).2.p + (decode_length 8 memA ⟨4, 1, 0⟩).2.length =
      (⟨4, 1, 0⟩ : asn1_context).p + (⟨4, 1, 0⟩ : asn1_context).length :=
  c10_amended 8 memA ⟨4, 1, 0⟩ (by decide)
